/-
Verification of the near-explorer backend synchronization engine.

This file gives a shallow embedding of the two source files of the
repository (`backend/src/index.js` and the HTTP telemetry endpoint) and
proves, or refutes, the properties claimed about them.

Modelling conventions:
* JavaScript values that may be `undefined` are modelled as `Option`.
* JavaScript numbers appearing as block heights and queue sizes are
  modelled as `Nat` (they are small non-negative integers in the source).
* The IEEE-754 double-precision arithmetic performed by
  `parseInt(blockInfo.header.timestamp / 1000000)` is modelled exactly,
  in integer arithmetic, by round-to-nearest-ties-to-even functions
  `flNat` (integer to double) and `flFloor` (truncated rounded quotient).
* The database is modelled as explicit state: lists of rows for the
  persistence claims, and a `Finset ℕ` of stored heights for the
  gap-sync claims (the `Block.height` column is unique).
-/
import Mathlib

namespace NearExplorer

/-! ### The `Result` envelope and `promiseResult`

Source (`backend/src/index.js`, lines 160-186):

```
class Result {
  contructor() { this.value = undefined; this.error = undefined; }
  isError() { return typeof this.error !== "undefined"; }
}
function promiseResult(promise) {
  return new Promise(resolve => {
    const payload = new Result();
    promise
      .then(result => { payload.value = result; })
      .catch(error => { payload.error = error; })
      .then(() => { resolve(payload); });
  });
}
```

Note the misspelt `contructor`: the body never runs, so the fields are
plain missing properties until assigned; `typeof` cannot distinguish a
missing property from one assigned `undefined`, so both are `none` here.
A promise can be rejected with the value `undefined`; the rejection
reason is therefore an `Option ε` (with `none` for `undefined`). -/

structure Result (α ε : Type) where
  value : Option α := none
  error : Option ε := none
  deriving DecidableEq

/-- The source's `isError`: `typeof this.error !== "undefined"`. -/
def Result.isError {α ε : Type} (r : Result α ε) : Bool :=
  r.error.isSome

/-- The settled state of the input promise handed to `promiseResult`:
either fulfilled with a value, or rejected with a reason (which may
itself be the JS value `undefined`, modelled `none`). -/
inductive PromiseOutcome (α ε : Type) where
  | fulfilled (v : α)
  | rejected (e : Option ε)
  deriving DecidableEq

/-- The function `promiseResult`, as a map on the settled outcome of its input.
The returned promise always resolves (the construction has no rejection
path), so it is modelled as a total function into `Result`.
On fulfillment the `.then` branch assigns `payload.value`; on rejection
the `.catch` branch assigns `payload.error` (possibly `undefined`). -/
def promiseResult {α ε : Type} : PromiseOutcome α ε → Result α ε
  | .fulfilled v => { value := some v, error := none }
  | .rejected e => { value := none, error := e }

/-! ### `saveBlocksFromRequests` (lines 188-211)

The source awaits all wrapped requests, then `flatMap`s the responses:
an error result logs the height (at `log` or `warn` level) and
contributes `[]`; a success contributes `[blockResult.value]`.  The
surviving blocks are passed to `saveBlocks`.  We return both the list
of blocks handed to persistence and the list of logged (dropped)
heights. -/

def saveBlocksFromRequests {α ε : Type} (requests : List (ℕ × Result α ε)) :
    List α × List ℕ :=
  (requests.filterMap (fun p => if p.2.isError then none else p.2.value),
   requests.filterMap (fun p => if p.2.isError then some p.1 else none))

/-! ### The timestamp conversion (line 107)

The source computes `timestamp: parseInt(blockInfo.header.timestamp / 1000000)`.
`blockInfo.header.timestamp` arrives from JSON-RPC as a JavaScript number,
i.e. the nanosecond count rounded to the nearest IEEE-754 binary64 value
(ties to even); the division by the exactly-representable constant
`1000000` is correctly rounded per IEEE-754; and for `0 ≤ x < 1e21`
JavaScript renders `x` in plain decimal whose integer part is `trunc x`,
so `parseInt(x)` truncates (every uint64 input keeps the quotient far
below `1e21`).  We model this pipeline exactly, in integer arithmetic:

* `nlog2 fuel n` = `⌊log2 n⌋` (fuel-based so that it is structural and
  kernel-reducible; fuel `128` covers all inputs up to `2^128`);
* `qlog2 fuel num den` = `⌊log2 (num/den)⌋` (fuel `300` covers ratios
  between `2^-300` and `2^300`, far beyond the uint64 range);
* `rndNat num den` rounds the rational `num/den` to the nearest integer,
  ties to even;
* `flNat n` is the binary64 value nearest to the integer `n`: exact below
  `2^53`, otherwise the nearest even-mantissa multiple of the spacing
  `2^(⌊log2 n⌋ - 52)`;
* `flFloor a d` is `⌊RN(a/d)⌋` where `RN` is binary64
  round-to-nearest-ties-to-even: the float candidates around `a/d` are
  the multiples of `ulp = 2^(e-52)` with `e = ⌊log2 (a/d)⌋` (a value that
  rounds up to `2^(e+1)` is also such a multiple, so the formula covers
  that boundary). -/

def nlog2 : ℕ → ℕ → ℕ
  | 0, _ => 0
  | fuel + 1, n => if n ≤ 1 then 0 else nlog2 fuel (n / 2) + 1

def qlog2 : ℕ → ℕ → ℕ → ℤ
  | 0, _, _ => 0
  | fuel + 1, num, den =>
    if 2 * den ≤ num then qlog2 fuel num (2 * den) + 1
    else if num < den then qlog2 fuel (2 * num) den - 1
    else 0

/-- Round `num/den` to the nearest integer, ties to even (`den > 0`). -/
def rndNat (num den : ℕ) : ℕ :=
  if 2 * (num % den) < den then num / den
  else if den < 2 * (num % den) then num / den + 1
  else if num / den % 2 = 0 then num / den else num / den + 1

/-- The binary64 double nearest to the natural number `n`
(round-to-nearest, ties to even). -/
def flNat (n : ℕ) : ℕ :=
  if n < 2 ^ 53 then n
  else rndNat n (2 ^ (nlog2 128 n - 52)) * 2 ^ (nlog2 128 n - 52)

/-- Computes `⌊RN(a/d)⌋`: the truncation of the correctly rounded binary64
quotient of `a` by `d` (`d > 0`). -/
def flFloor (a d : ℕ) : ℕ :=
  if a = 0 then 0
  else
    let e : ℤ := qlog2 300 a d
    if 52 ≤ e then rndNat a (d * 2 ^ (e - 52).toNat) * 2 ^ (e - 52).toNat
    else rndNat (a * 2 ^ (52 - e).toNat) d / 2 ^ (52 - e).toNat

/-- Models `parseInt(blockInfo.header.timestamp / 1000000)` on a nanosecond
timestamp `ns`: `ns` is first rounded to a double, then divided by
`1000000` with correct rounding, then truncated. -/
def jsTimestampMs (ns : ℕ) : ℕ :=
  flFloor (flNat ns) 1000000

/-! ### Block data and the persistence batch (`saveBlocks`, lines 97-158)

```
async function saveBlocks(blocksInfo) {
  try {
    await models.sequelize.transaction(async transaction => {
      try {
        await models.Block.bulkCreate(...);
        await models.Chunk.bulkCreate(...);
        await Promise.all(
          blocksInfo
            .filter(blockInfo => blockInfo.transactions.length > 0)
            .map(blockInfo => {
              models.Transaction.bulkCreate(...)   // note: no `return`
            })
        );
      } catch (error) { console.warn(...); }
    });
  } catch (error) { console.warn(...); }
}
```

`models.sequelize.transaction` is ORM wiring outside the given sources.
Modelled from the spec: the managed transaction "commits atomically or
rolls back" — it rolls back exactly when its callback throws, and
otherwise commits the statements that succeeded.  Because the *inner*
`try`/`catch` swallows any statement failure, the callback never throws:
a failing statement aborts the rest of the `try` block, yet the
statements that already succeeded are committed.

The transaction-row inserts are built by an arrow function whose braced
body never returns the `bulkCreate` promise, so the `Promise.all`
resolves over `undefined` values without awaiting them: the inserts are
fire-and-forget, outside the awaited transaction.  `txArrowResult`
models the value each arrow contributes to the `Promise.all`.

Statement failures are oracle parameters (`DbFailures`): whether the
`Block.bulkCreate` fails, whether the `Chunk.bulkCreate` fails, and, per
block hash, whether the detached `Transaction.bulkCreate` ever takes
effect. -/

/-- Source `toBase58` on an input that is already a string is the identity
(the `typeof input === "string"` branch); hashes are modelled as the
base58 strings the RPC returns. -/
def toBase58 (input : String) : String := input

structure TxArgs where
  originator : String
  deriving DecidableEq

/-- One element of `blockInfo.transactions`: `tx.body` is a
single-entry map `{ <kind>: <args> }`. -/
structure TxInfo where
  hash : String
  body_kind : String
  body_args : TxArgs
  deriving DecidableEq

structure BlockHeader where
  hash : String
  height : ℕ
  prev_hash : String
  timestamp : ℕ
  total_weight_num : ℕ
  deriving DecidableEq

structure BlockInfo where
  header : BlockHeader
  transactions : List TxInfo
  deriving DecidableEq

structure BlockRow where
  hash : String
  height : ℕ
  prevHash : String
  timestamp : ℕ
  weight : ℕ
  authorId : String
  listOfApprovals : String
  deriving DecidableEq

structure ChunkRow where
  hash : String
  blockHash : String
  shardId : String
  authorId : String
  deriving DecidableEq

structure TxRow where
  hash : String
  originator : String
  destination : String
  kind : String
  args : TxArgs
  parentHash : Option String
  chunkHash : String
  status : String
  logs : String
  deriving DecidableEq

/-- The row passed to `models.Block.bulkCreate` for one block. -/
def mkBlockRow (b : BlockInfo) : BlockRow :=
  { hash := toBase58 b.header.hash
    height := b.header.height
    prevHash := toBase58 b.header.prev_hash
    timestamp := jsTimestampMs b.header.timestamp
    weight := b.header.total_weight_num
    authorId := "n/a"
    listOfApprovals := "n/a" }

/-- The row passed to `models.Chunk.bulkCreate` for one block (the chunk
hash is set to the block hash). -/
def mkChunkRow (b : BlockInfo) : ChunkRow :=
  { hash := toBase58 b.header.hash
    blockHash := toBase58 b.header.hash
    shardId := "n/a"
    authorId := "n/a" }

/-- The rows passed to `models.Transaction.bulkCreate` for one block. -/
def mkTxRows (b : BlockInfo) : List TxRow :=
  b.transactions.map fun tx =>
    { hash := toBase58 tx.hash
      originator := tx.body_args.originator
      destination := "n/a"
      kind := tx.body_kind
      args := tx.body_args
      parentHash := none
      chunkHash := toBase58 b.header.hash
      status := "Completed"
      logs := "" }

/-- The value the inner arrow function contributes to the `Promise.all`:
its body `{ models.Transaction.bulkCreate(...) }` has no `return`, so the
arrow evaluates to `undefined` (the `bulkCreate` promise is discarded,
not awaited). -/
def txArrowResult (_ : BlockInfo) : Option (List TxRow) := none

/-- The list of values joined by the `Promise.all` in `saveBlocks`: one
per block with a non-empty transaction list. -/
def savedTxPromises (blocksInfo : List BlockInfo) : List (Option (List TxRow)) :=
  (blocksInfo.filter fun b => !b.transactions.isEmpty).map txArrowResult

structure Db where
  blocks : List BlockRow
  chunks : List ChunkRow
  txs : List TxRow
  deriving DecidableEq

def emptyDb : Db := { blocks := [], chunks := [], txs := [] }

structure DbFailures where
  blockInsertFails : Bool
  chunkInsertFails : Bool
  txInsertFails : String → Bool

/-- The observable effect of `saveBlocks` on the store, given the
failure oracle.  If the `Block.bulkCreate` throws, the inner catch runs
before anything was accumulated, and the committed transaction is empty.
If the `Chunk.bulkCreate` throws, the inner catch fires after the block
rows were accumulated, the callback still resolves, and the transaction
commits the block rows alone.  Otherwise both bulk inserts commit, and
the un-awaited per-block `Transaction.bulkCreate` calls land outside the
transaction if and when they succeed. -/
def saveBlocks (f : DbFailures) (blocksInfo : List BlockInfo) (db : Db) : Db :=
  if f.blockInsertFails then db
  else if f.chunkInsertFails then
    { db with blocks := db.blocks ++ blocksInfo.map mkBlockRow }
  else
    { blocks := db.blocks ++ blocksInfo.map mkBlockRow
      chunks := db.chunks ++ blocksInfo.map mkChunkRow
      txs := db.txs ++
        (blocksInfo.filter fun b => !b.transactions.isEmpty).flatMap
          fun b => if f.txInsertFails b.header.hash then [] else mkTxRows b }

/-! ### The fetch pipeline (`syncNearcoreBlocks`, lines 213-240)

```
async function syncNearcoreBlocks(topBlockHeight, bottomBlockHeight) {
  if (topBlockHeight < bottomBlockHeight) { return; }
  let syncingBlockHeight = topBlockHeight;
  const requests = [];
  const saves = [];
  while (syncingBlockHeight >= bottomBlockHeight) {
    requests.push([syncingBlockHeight, promiseResult(nearRpc.block(syncingBlockHeight))]);
    --syncingBlockHeight;
    if (requests.length > syncFetchQueueSize) {
      saves.push(saveBlocksFromRequests(requests.splice(0, bulkDbUpdateSize)));
    }
    if (saves.length > syncSaveQueueSize) {
      await saves.shift();
    }
  }
  saves.push(saveBlocksFromRequests(requests));
  await Promise.all(saves);
}
```

The state is the pair (pending request heights, submitted-batch queue).
`splice(0, bulk)` detaches the oldest `bulk` pending requests into a
batch appended to `saves`; `await saves.shift()` removes the oldest
batch and suspends until it completes.  The only suspension point inside
the loop is that `await`, so the state is modelled at iteration
boundaries; the detach and the shift happen synchronously within the
iteration that pushed past the bound, as the claim describes. -/

def syncStep (fq bulk sq : ℕ) (st : List ℕ × List (List ℕ)) (h : ℕ) :
    List ℕ × List (List ℕ) :=
  let requests := st.1 ++ [h]
  let harvested :=
    if fq < requests.length then (requests.drop bulk, st.2 ++ [requests.take bulk])
    else (requests, st.2)
  if sq < harvested.2.length then (harvested.1, harvested.2.tail) else harvested

/-- The pipeline state after the while loop has processed `heights`. -/
def syncRun (fq bulk sq : ℕ) (heights : List ℕ) : List ℕ × List (List ℕ) :=
  heights.foldl (syncStep fq bulk sq) ([], [])

/-- The batch queue at the final `await Promise.all(saves)`: the loop's
`saves` with the residual `requests` pushed as one final batch. -/
def syncFlush (st : List ℕ × List (List ℕ)) : List (List ℕ) :=
  st.2 ++ [st.1]

/-- The heights the loop walks, descending from `top` to `bottom`. -/
def syncHeights (top bottom : ℕ) : List ℕ :=
  (List.range' bottom (top + 1 - bottom)).reverse

/-- Models `syncNearcoreBlocks top bottom`, returning the batch queue awaited
by the closing `Promise.all` (empty when the early return fires). -/
def syncNearcoreBlocks (fq bulk sq top bottom : ℕ) : List (List ℕ) :=
  if top < bottom then []
  else syncFlush (syncRun fq bulk sq (syncHeights top bottom))

/-! ### Gap sync (`syncMissingNearcoreState`, lines 278-321)

The stored heights form a `Finset ℕ` (the `height` column is unique).
`models.Block.count` over `height BETWEEN low AND high` is the card of
the intersection with `Finset.Icc low high`.  `gapRanges` returns the
list of `[low, high]` ranges handed to `syncNearcoreBlocks`, in call
order; `gapDepth` is the call depth of the same recursion (1 for a call
that does not recurse). -/

def gapCount (db : Finset ℕ) (lo hi : ℕ) : ℕ :=
  (db ∩ Finset.Icc lo hi).card

def gapRanges (fq : ℕ) (db : Finset ℕ) (lo hi : ℕ) : List (ℕ × ℕ) :=
  if _h1 : hi < lo then []
  else if _h2 : hi - lo + 1 = gapCount db lo hi then []
  else if _h3 : hi - lo ≤ fq ∧ gapCount db lo hi = 0 then [(lo, hi)]
  else
    gapRanges fq db lo ((lo + hi) / 2) ++ gapRanges fq db ((lo + hi) / 2 + 1) hi
termination_by hi + 1 - lo
decreasing_by
  · have hcard : gapCount db lo hi ≤ hi + 1 - lo := by
      refine le_trans (Finset.card_le_card Finset.inter_subset_right) ?_
      rw [Nat.card_Icc]
    omega
  · omega

def gapDepth (fq : ℕ) (db : Finset ℕ) (lo hi : ℕ) : ℕ :=
  if h1 : hi < lo then 1
  else if h2 : hi - lo + 1 = gapCount db lo hi then 1
  else if h3 : hi - lo ≤ fq ∧ gapCount db lo hi = 0 then 1
  else
    max (gapDepth fq db lo ((lo + hi) / 2)) (gapDepth fq db ((lo + hi) / 2 + 1) hi) + 1
termination_by hi + 1 - lo
decreasing_by
  · have hcard : gapCount db lo hi ≤ hi + 1 - lo := by
      refine le_trans (Finset.card_le_card Finset.inter_subset_right) ?_
      rw [Nat.card_Icc]
    omega
  · omega

/-- Models `syncMissingNearcoreState`: both `findOne` probes return `null`
exactly when the store is empty (then the pass returns); otherwise the
inner recursion is started on `[min+1, max-1]`. -/
def syncMissingNearcoreState (fq : ℕ) (db : Finset ℕ) : List (ℕ × ℕ) :=
  if h : db.Nonempty then gapRanges fq db (db.min' h + 1) (db.max' h - 1)
  else []

/-! ### The `node-telemetry` bus procedure (lines 41-51)

```
wampHandlers["node-telemetry"] = async ([nodeInfo]) => {
  return await models.Node.upsert({
    nodeId: nodeInfo.node_id,
    moniker: nodeInfo.account_id,
    accountId: nodeInfo.account_id,
    ipAddress: nodeInfo.ip_address,
    lastSeen: Date.now(),
    lastHeight: nodeInfo.latest_block_height
  });
};
```

We model the row object passed to `models.Node.upsert`;
`Date.now()` is the `now` parameter. -/

structure NodeTelemetryInfo where
  node_id : String
  account_id : String
  ip_address : String
  latest_block_height : ℕ
  deriving DecidableEq

structure NodeRow where
  nodeId : String
  moniker : String
  accountId : String
  ipAddress : String
  lastSeen : ℕ
  lastHeight : ℕ
  deriving DecidableEq

/-- The row handed to `models.Node.upsert` by the `node-telemetry`
handler. -/
def nodeTelemetryUpsertRow (now : ℕ) (nodeInfo : NodeTelemetryInfo) : NodeRow :=
  { nodeId := nodeInfo.node_id
    moniker := nodeInfo.account_id
    accountId := nodeInfo.account_id
    ipAddress := nodeInfo.ip_address
    lastSeen := now
    lastHeight := nodeInfo.latest_block_height }

/-! ### The HTTP telemetry endpoint (the unnamed Next.js handler)

```
const handler: NextApiHandler = async (req, res) => {
  try {
    let ip_address =
      req.headers["x-forwarded-for"] ||
      req.connection.remoteAddress ||
      req.socket.remoteAddress;
    const networkName = getNearNetworkName(req.query, req.headers.host);
    const timing = await getFetcher(networkName)("node-telemetry", [
      { ...req.body, ip_address: ip_address },
    ]);
    res.send(req.query.debug ? { timing } : {});
  } catch (error) { res.status(400).send(error); }
};
```

`getNearNetworkName` and `getFetcher` live in modules outside the given
sources, so they are abstract parameters here.  JavaScript `||` picks
the first *truthy* operand: for string-or-undefined values that means
defined and non-empty. -/

/-- JS truthiness of a string-or-undefined value: `undefined` and the
empty string are falsy. -/
def jsTruthy : Option String → Bool
  | none => false
  | some s => !(s == "")

/-- JavaScript `||` on string-or-undefined values. -/
def jsOr (a b : Option String) : Option String :=
  if jsTruthy a then a else b

structure TelemetryRequest (Q : Type) where
  headersXForwardedFor : Option String
  connectionRemoteAddress : Option String
  socketRemoteAddress : Option String
  headersHost : Option String
  query : Q
  body : String → Option String

inductive TelemetryResponse (E T : Type) where
  | empty
  | timing (t : T)
  | badRequest (e : E)

/-- The telemetry endpoint.  `getNetworkName` models
`getNearNetworkName`, `queryDebug` extracts `req.query.debug`, and
`forward` models `await getFetcher(networkName)("node-telemetry",
[payload])`, returning either the timing or a thrown error (which the
handler's `catch` turns into a 400 response).  Returns the selected
network, the forwarded payload and the HTTP response. -/
def telemetryHandler {Q E T : Type}
    (getNetworkName : Q → Option String → String)
    (queryDebug : Q → Option String)
    (forward : String → (String → Option String) → Except E T)
    (req : TelemetryRequest Q) :
    String × (String → Option String) × TelemetryResponse E T :=
  let ip := jsOr req.headersXForwardedFor
    (jsOr req.connectionRemoteAddress req.socketRemoteAddress)
  let networkName := getNetworkName req.query req.headersHost
  let payload : String → Option String :=
    fun k => if k = "ip_address" then ip else req.body k
  match forward networkName payload with
  | .ok t =>
      (networkName, payload,
        if jsTruthy (queryDebug req.query) then .timing t else .empty)
  | .error e => (networkName, payload, .badRequest e)

/-! ### Concrete sample inputs used by counterexamples and witnesses -/

def sampleTx : TxInfo :=
  { hash := "t1", body_kind := "SendMoney", body_args := { originator := "alice" } }

def sampleBlock : BlockInfo :=
  { header :=
      { hash := "h1", height := 7, prev_hash := "h0",
        timestamp := 1234567890, total_weight_num := 1 }
    transactions := [sampleTx] }

def sampleTelemetryReq : TelemetryRequest Unit :=
  { headersXForwardedFor := some "1.2.3.4"
    connectionRemoteAddress := some "5.6.7.8"
    socketRemoteAddress := none
    headersHost := some "explorer.example"
    query := ()
    body := fun _ => none }

/-! ## Theorems -/

/-! ### Helper lemmas -/

theorem syncStep_bounds (fq bulk sq : ℕ) (hb : 1 ≤ bulk)
    (st : List ℕ × List (List ℕ)) (h : ℕ)
    (h1 : st.1.length ≤ fq) (h2 : st.2.length ≤ sq) :
    (syncStep fq bulk sq st h).1.length ≤ fq ∧
    (syncStep fq bulk sq st h).2.length ≤ sq := by
  simp only [syncStep]
  split_ifs with hA hB hC <;>
    simp_all [List.length_append, List.length_drop, List.length_tail] <;> omega

theorem syncFold_bounds (fq bulk sq : ℕ) (hb : 1 ≤ bulk) (l : List ℕ) :
    ∀ st : List ℕ × List (List ℕ), st.1.length ≤ fq → st.2.length ≤ sq →
      ((l.foldl (syncStep fq bulk sq) st).1.length ≤ fq ∧
       (l.foldl (syncStep fq bulk sq) st).2.length ≤ sq) := by
  induction l with
  | nil => intro st h1 h2; exact ⟨h1, h2⟩
  | cons a l ih =>
    intro st h1 h2
    have := syncStep_bounds fq bulk sq hb st a h1 h2
    exact ih _ this.1 this.2

/-- C1 (amended), bounded queues.  At every iteration boundary of the
fetch loop (i.e. after processing any number `n` of heights) the pending
unharvested request queue holds at most `FETCH_QUEUE` requests and the
batch queue holds at most `SAVE_QUEUE` in-flight batches; the final
flush, which pushes the residual requests as one more batch without
blocking, can raise the batch queue to `SAVE_QUEUE + 1`. -/
theorem c1_queue_bounds (fq bulk sq : ℕ) (hb : 1 ≤ bulk)
    (heights : List ℕ) (n : ℕ) :
    (syncRun fq bulk sq (heights.take n)).1.length ≤ fq ∧
    (syncRun fq bulk sq (heights.take n)).2.length ≤ sq ∧
    (syncFlush (syncRun fq bulk sq heights)).length ≤ sq + 1 := by
  have h1 := syncFold_bounds fq bulk sq hb (heights.take n) ([], []) (by simp) (by simp)
  have h2 := syncFold_bounds fq bulk sq hb heights ([], []) (by simp) (by simp)
  refine ⟨h1.1, h1.2, ?_⟩
  simp only [syncFlush, syncRun, List.length_append, List.length_singleton]
  have := h2.2
  simp only [syncRun] at this
  omega

/-- C1 witness: the bound at a concrete run. -/
theorem c1_queue_bounds_witness :
    (syncRun 2 1 1 ([9, 8, 7, 6].take 3)).1.length ≤ 2 ∧
    (syncRun 2 1 1 ([9, 8, 7, 6].take 3)).2.length ≤ 1 ∧
    (syncFlush (syncRun 2 1 1 [9, 8, 7, 6])).length ≤ 2 :=
  c1_queue_bounds 2 1 1 (by decide) [9, 8, 7, 6] 3

/-- C1 counterexample: with `FETCH_QUEUE = 1`, `BULK_DB = 1`,
`SAVE_QUEUE = 1`, the pass `syncNearcoreBlocks(3, 1)` ends with **2**
batches in its save queue at the closing `await Promise.all(saves)`: the
final `saves.push(saveBlocksFromRequests(requests))` is not followed by
the blocking check, so at that instant `SAVE_QUEUE + 1` persist batches
are in flight, exceeding the claimed bound `SAVE_QUEUE`. -/
theorem c1_save_queue_exceeded :
    (syncNearcoreBlocks 1 1 1 3 1).length = 2 := by decide

/-- C2: the persistence batch is *not* atomic.  With a batch of one
block whose `Chunk.bulkCreate` fails after `Block.bulkCreate` succeeded,
the inner `catch` swallows the error, the transaction callback resolves,
and the commit makes the Block row visible with no Chunk row: the batch
is not dropped and partial rows are visible, contradicting the claim. -/
theorem c2_partial_rows_visible :
    (saveBlocks ⟨false, true, fun _ => false⟩ [sampleBlock] emptyDb).blocks.length = 1 ∧
    (saveBlocks ⟨false, true, fun _ => false⟩ [sampleBlock] emptyDb).chunks.length = 0 ∧
    saveBlocks ⟨false, true, fun _ => false⟩ [sampleBlock] emptyDb ≠ emptyDb := by
  refine ⟨rfl, rfl, ?_⟩
  intro hcontra
  have : (saveBlocks ⟨false, true, fun _ => false⟩ [sampleBlock] emptyDb).blocks.length =
      emptyDb.blocks.length := by rw [hcontra]
  simp [saveBlocks, emptyDb] at this

/-- C6: the Transaction rows are not inserted within (nor awaited as
part of) the batch's database transaction.  The arrow functions handed
to `Promise.all` return `undefined` (no `return` in their braced
bodies), so nothing awaits the `Transaction.bulkCreate` promises; if the
detached insert fails (or is still pending) the batch's transaction
commits Block and Chunk rows while no Transaction row is stored, even
though the block carries a transaction. -/
theorem c6_transactions_fire_and_forget :
    savedTxPromises [sampleBlock] = [none] ∧
    mkTxRows sampleBlock ≠ [] ∧
    (saveBlocks ⟨false, false, fun _ => true⟩ [sampleBlock] emptyDb).chunks.length = 1 ∧
    (saveBlocks ⟨false, false, fun _ => true⟩ [sampleBlock] emptyDb).txs = [] := by
  refine ⟨rfl, by simp [mkTxRows, sampleBlock], rfl, rfl⟩

/-- C5 (confirmed): in any batch of settled fetch requests, every
successfully fetched block is passed on to persistence and every failed
height is logged and excluded — a fetch failure in the batch never drops
the successes around it, and nothing else enters or leaves the batch. -/
theorem c5_failures_isolated {α ε : Type} (requests : List (ℕ × Result α ε)) :
    (∀ p ∈ requests, p.2.isError = false → ∀ v, p.2.value = some v →
        v ∈ (saveBlocksFromRequests requests).1) ∧
    (∀ p ∈ requests, p.2.isError = true → p.1 ∈ (saveBlocksFromRequests requests).2) ∧
    (∀ v ∈ (saveBlocksFromRequests requests).1,
        ∃ p ∈ requests, p.2.isError = false ∧ p.2.value = some v) ∧
    (∀ h ∈ (saveBlocksFromRequests requests).2,
        ∃ p ∈ requests, p.2.isError = true ∧ p.1 = h) := by
  refine ⟨?_, ?_, ?_, ?_⟩
  · intro p hp herr v hval
    simp only [saveBlocksFromRequests, List.mem_filterMap]
    exact ⟨p, hp, by simp [herr, hval]⟩
  · intro p hp herr
    simp only [saveBlocksFromRequests, List.mem_filterMap]
    exact ⟨p, hp, by simp [herr]⟩
  · intro v hv
    simp only [saveBlocksFromRequests, List.mem_filterMap] at hv
    obtain ⟨p, hp, hval⟩ := hv
    by_cases herr : p.2.isError <;> simp [herr] at hval
    exact ⟨p, hp, by simp [herr], hval⟩
  · intro h hh
    simp only [saveBlocksFromRequests, List.mem_filterMap] at hh
    obtain ⟨p, hp, hval⟩ := hh
    by_cases herr : p.2.isError <;> simp [herr] at hval
    exact ⟨p, hp, by simp [herr], hval⟩

/-- C5 witness: a mixed batch with one success and one failure. -/
theorem c5_failures_isolated_witness :
    (10 : ℕ) ∈ (saveBlocksFromRequests
        [(5, ({ value := some 10 } : Result ℕ ℕ)),
         (4, ({ error := some 3 } : Result ℕ ℕ))]).1 ∧
    (4 : ℕ) ∈ (saveBlocksFromRequests
        [(5, ({ value := some 10 } : Result ℕ ℕ)),
         (4, ({ error := some 3 } : Result ℕ ℕ))]).2 :=
  ⟨(c5_failures_isolated _).1 (5, ({ value := some 10 } : Result ℕ ℕ))
      (by decide) rfl 10 rfl,
   (c5_failures_isolated _).2.1 (4, ({ error := some 3 } : Result ℕ ℕ))
      (by decide) rfl⟩

/-- C7 (amended): `promiseResult` always resolves (it is a total
function into `Result`), the envelope of a fulfilled promise carries the
fulfillment value, and `isError()` is true exactly when the input
rejected *with a defined reason*: a rejection whose reason is the value
`undefined` is indistinguishable from success for `isError`. -/
theorem c7_result_envelope {α ε : Type} (o : PromiseOutcome α ε) :
    ((promiseResult o).isError = true ↔ ∃ e : ε, o = .rejected (some e)) ∧
    (∀ v : α, o = .fulfilled v → (promiseResult o).value = some v) := by
  constructor
  · cases o with
    | fulfilled v => simp [promiseResult, Result.isError]
    | rejected e =>
      cases e <;> simp [promiseResult, Result.isError]
  · intro v hv
    subst hv
    rfl

/-- C7 witness: a fulfilled promise keeps its value and is not an
error. -/
theorem c7_result_envelope_witness :
    (promiseResult (PromiseOutcome.fulfilled 5 : PromiseOutcome ℕ ℕ)).value = some 5 :=
  (c7_result_envelope _).2 5 rfl

/-- C7 counterexample: a promise rejected with the reason `undefined`
produces an envelope whose `isError()` is `false`, refuting "`isError()`
is true exactly when `p` rejected". -/
theorem c7_rejected_undefined_not_error :
    (promiseResult (PromiseOutcome.rejected none : PromiseOutcome ℕ ℕ)).isError = false :=
  rfl

theorem qlog2_le :
    ∀ (fuel c num den : ℕ), num < 2 ^ (c + 1) * den →
      qlog2 fuel num den ≤ (c : ℤ) := by
  intro fuel
  induction fuel with
  | zero =>
    intro c num den _
    simp [qlog2]
  | succ fuel ih =>
    intro c num den h
    simp only [qlog2]
    split_ifs with hA hB
    · have hc : 1 ≤ c := by
        rcases Nat.eq_zero_or_pos c with rfl | hpos
        · norm_num at h
          omega
        · exact hpos
      have hrec : num < 2 ^ (c - 1 + 1) * (2 * den) := by
        have heq : 2 ^ (c - 1 + 1) * (2 * den) = 2 ^ (c + 1) * den := by
          have hc1 : c - 1 + 1 = c := by omega
          rw [hc1, pow_succ]
          ring
        rw [heq]
        exact h
      have hle := ih (c - 1) num (2 * den) hrec
      omega
    · have h2 : 2 ≤ 2 ^ (c + 1) := by
        calc (2 : ℕ) = 2 ^ 1 := rfl
        _ ≤ 2 ^ (c + 1) := Nat.pow_le_pow_right (by norm_num) (by omega)
      have hrec : 2 * num < 2 ^ (c + 1) * den := by
        calc 2 * num < 2 * den := by omega
        _ ≤ 2 ^ (c + 1) * den := Nat.mul_le_mul_right den h2
      have hle := ih c (2 * num) den hrec
      omega
    · omega

theorem rndNat_le (num den : ℕ) (hd : 0 < den) :
    2 * den * rndNat num den ≤ 2 * num + den := by
  unfold rndNat
  have h2 : num % den < den := Nat.mod_lt _ hd
  have h1 : den * (num / den) + num % den = num := Nat.div_add_mod num den
  set f := num / den with hf
  set r := num % den with hr
  rw [← h1]
  split_ifs with hA hB hC <;> nlinarith

theorem rndNat_ge (num den : ℕ) : num / den ≤ rndNat num den := by
  unfold rndNat
  split_ifs <;> omega

/-- Floor of the rounded quotient: as long as the divisor `d` is below
`2^(k+1)`, rounding `a/d` to the nearest multiple of `2^-k` (ties
anywhere) cannot cross an integer: the truncation equals `a / d`. -/
theorem rndNat_pow_div (a d k : ℕ) (hd : 0 < d) (hk : d < 2 ^ (k + 1)) :
    rndNat (a * 2 ^ k) d / 2 ^ k = a / d := by
  set P := 2 ^ k with hP
  set q := a / d with hq
  set r := a % d with hr
  have h1 : d * q + r = a := Nat.div_add_mod a d
  have h2 : r < d := Nat.mod_lt _ hd
  have hk2 : d < 2 * P := by
    rw [hP, ← pow_succ']
    exact hk
  set R := rndNat (a * P) d with hR
  have hub : 2 * d * R ≤ 2 * (a * P) + d := rndNat_le _ _ hd
  have hlb : a * P / d ≤ R := rndNat_ge _ _
  have hlow : q * P ≤ R := by
    refine le_trans ?_ hlb
    rw [Nat.le_div_iff_mul_le hd]
    calc q * P * d = d * q * P := by ring
    _ ≤ a * P := by
        refine Nat.mul_le_mul_right P ?_
        omega
  have key1 : 2 * r * P + 2 * P ≤ 2 * d * P := by
    calc 2 * r * P + 2 * P = (2 * r + 2) * P := by ring
    _ ≤ (2 * d) * P := Nat.mul_le_mul_right P (by omega)
    _ = 2 * d * P := by ring
  have hup : R < (q + 1) * P := by
    have hstep : 2 * d * R < 2 * d * ((q + 1) * P) := by
      calc 2 * d * R ≤ 2 * (a * P) + d := hub
      _ = 2 * (d * q) * P + (2 * r * P + d) := by rw [← h1]; ring
      _ < 2 * (d * q) * P + (2 * r * P + 2 * P) :=
          Nat.add_lt_add_left (Nat.add_lt_add_left hk2 _) _
      _ ≤ 2 * (d * q) * P + 2 * d * P := Nat.add_le_add_left key1 _
      _ = 2 * d * ((q + 1) * P) := by ring
    exact Nat.lt_of_mul_lt_mul_left hstep
  exact Nat.div_eq_of_lt_le hlow hup

/-- C4 (amended): for every block whose nanosecond timestamp is below
`2^53` (hence exactly representable as a binary64 double) the stored
millisecond timestamp equals `⌊ns / 1_000_000⌋` exactly; uint64 inputs
at `2^53` and above can be shifted by the double rounding (see the
counterexample). -/
theorem c4_timestamp_exact_below_pow53 (ns : ℕ) (h : ns < 2 ^ 53) :
    jsTimestampMs ns = ns / 1000000 := by
  unfold jsTimestampMs
  have hfl : flNat ns = ns := by rw [flNat, if_pos h]
  rw [hfl]
  rcases Nat.eq_zero_or_pos ns with rfl | hpos
  · simp [flFloor]
  · have he : qlog2 300 ns 1000000 ≤ (33 : ℤ) := by
      apply qlog2_le
      calc ns < 2 ^ 53 := h
      _ ≤ 2 ^ (33 + 1) * 1000000 := by norm_num
    simp only [flFloor]
    rw [if_neg (by omega), if_neg (by omega)]
    refine rndNat_pow_div ns 1000000 _ (by norm_num) ?_
    calc (1000000 : ℕ) < 2 ^ 20 := by norm_num
    _ ≤ 2 ^ ((52 - qlog2 300 ns 1000000).toNat + 1) :=
        Nat.pow_le_pow_right (by norm_num) (by omega)

/-- C4 witness: a small timestamp converts exactly. -/
theorem c4_timestamp_witness : jsTimestampMs 1234567890 = 1234 :=
  (c4_timestamp_exact_below_pow53 1234567890 (by norm_num)).trans (by norm_num)

/-- C4 counterexample: the uint64 nanosecond timestamp
`10^16 - 1 = 9999999999999999` is rounded up to `10^16` when it enters
binary64 (it lies exactly between two doubles and the even mantissa
wins), so the stored millisecond value is `10^10`, while exact integer
truncation gives `9999999999`: the claim fails for this uint64 input. -/
theorem c4_timestamp_large_input :
    jsTimestampMs (10 ^ 16 - 1) = 10 ^ 10 ∧
    (10 ^ 16 - 1) / 1000000 = 9999999999 ∧
    10 ^ 16 - 1 < 2 ^ 64 ∧
    jsTimestampMs (10 ^ 16 - 1) ≠ (10 ^ 16 - 1) / 1000000 := by decide

theorem gapCount_le (db : Finset ℕ) (lo hi : ℕ) :
    gapCount db lo hi ≤ hi + 1 - lo := by
  refine le_trans (Finset.card_le_card Finset.inter_subset_right) ?_
  rw [Nat.card_Icc]

theorem gapSplit_lt (fq : ℕ) (db : Finset ℕ) (lo hi : ℕ)
    (h1 : ¬ hi < lo) (h2 : ¬ (hi - lo + 1 = gapCount db lo hi))
    (h3 : ¬ (hi - lo ≤ fq ∧ gapCount db lo hi = 0)) : lo < hi := by
  have := gapCount_le db lo hi
  omega

/-- C3 (confirmed): the gap-sync pass.  (1) With fewer than two stored
rows it is a no-op.  (2) Otherwise it processes
`[min height + 1, max height - 1]`.  For `lo ≤ hi`: (3) if the stored
count on `[lo, hi]` equals `hi - lo + 1` it returns nothing; (4) if the
count differs, `hi - lo ≤ FETCH_QUEUE` and the count is `0`, it runs the
fetch pipeline on exactly `[lo, hi]`; (5) otherwise it splits at
`mid = ⌊(lo + hi) / 2⌋` and recurses on `[lo, mid]` then
`[mid + 1, hi]`. -/
theorem c3_gap_sync_algorithm (fq : ℕ) (db : Finset ℕ) :
    (db.card < 2 → syncMissingNearcoreState fq db = []) ∧
    (∀ h : db.Nonempty, syncMissingNearcoreState fq db =
        gapRanges fq db (db.min' h + 1) (db.max' h - 1)) ∧
    (∀ lo hi, lo ≤ hi → gapCount db lo hi = hi - lo + 1 →
        gapRanges fq db lo hi = []) ∧
    (∀ lo hi, lo ≤ hi → gapCount db lo hi ≠ hi - lo + 1 → hi - lo ≤ fq →
        gapCount db lo hi = 0 → gapRanges fq db lo hi = [(lo, hi)]) ∧
    (∀ lo hi, lo ≤ hi → gapCount db lo hi ≠ hi - lo + 1 →
        ¬ (hi - lo ≤ fq ∧ gapCount db lo hi = 0) →
        gapRanges fq db lo hi =
          gapRanges fq db lo ((lo + hi) / 2) ++
            gapRanges fq db ((lo + hi) / 2 + 1) hi) := by
  refine ⟨?_, ?_, ?_, ?_, ?_⟩
  · intro hcard
    have hcases : db.card = 0 ∨ db.card = 1 := by omega
    rcases hcases with h0 | h1
    · have : db = ∅ := Finset.card_eq_zero.mp h0
      subst this
      simp [syncMissingNearcoreState]
    · obtain ⟨a, rfl⟩ := Finset.card_eq_one.mp h1
      have hne : ({a} : Finset ℕ).Nonempty := ⟨a, Finset.mem_singleton_self a⟩
      rw [syncMissingNearcoreState, dif_pos hne]
      rw [Finset.min'_singleton, Finset.max'_singleton]
      rw [gapRanges.eq_def, dif_pos (by omega)]
  · intro h
    rw [syncMissingNearcoreState, dif_pos h]
  · intro lo hi hle hfull
    conv_lhs => rw [gapRanges.eq_def]
    rw [dif_neg (by omega), dif_pos hfull.symm]
  · intro lo hi hle hne hfq h0
    conv_lhs => rw [gapRanges.eq_def]
    rw [dif_neg (by omega), dif_neg (fun hh => hne hh.symm), dif_pos ⟨hfq, h0⟩]
  · intro lo hi hle hne hsplit
    conv_lhs => rw [gapRanges.eq_def]
    rw [dif_neg (by omega), dif_neg (fun hh => hne hh.symm), dif_neg hsplit]

/-- C3 witness: an entirely missing range small enough to fetch directly
is handed to the pipeline as one range. -/
theorem c3_gap_sync_witness :
    gapRanges 3 (∅ : Finset ℕ) 1 2 = [(1, 2)] :=
  (c3_gap_sync_algorithm 3 ∅).2.2.2.1 1 2 (by decide) (by decide) (by decide)
    (by decide)

theorem gapDepth_le_clog (fq : ℕ) (db : Finset ℕ) :
    ∀ n lo hi, hi + 1 - lo ≤ n →
      gapDepth fq db lo hi ≤ Nat.clog 2 (hi + 1 - lo) + 1 := by
  intro n
  induction n with
  | zero =>
    intro lo hi hsz
    rw [gapDepth.eq_def, dif_pos (by omega)]
    exact Nat.succ_le_succ (Nat.zero_le _)
  | succ n ih =>
    intro lo hi hsz
    rw [gapDepth.eq_def]
    split_ifs with h1 h2 h3
    · exact Nat.succ_le_succ (Nat.zero_le _)
    · exact Nat.succ_le_succ (Nat.zero_le _)
    · exact Nat.succ_le_succ (Nat.zero_le _)
    · have hlt : lo < hi := gapSplit_lt fq db lo hi h1 h2 h3
      have hL := ih lo ((lo + hi) / 2) (by omega)
      have hR := ih ((lo + hi) / 2 + 1) hi (by omega)
      have hLsz : (lo + hi) / 2 + 1 - lo = (hi + 1 - lo + 2 - 1) / 2 := by omega
      have hRsz : hi + 1 - ((lo + hi) / 2 + 1) = (hi + 1 - lo) / 2 := by omega
      have hstep : Nat.clog 2 (hi + 1 - lo) =
          Nat.clog 2 ((hi + 1 - lo + 2 - 1) / 2) + 1 :=
        Nat.clog_of_two_le (by norm_num) (by omega)
      refine Nat.succ_le_succ (Nat.max_le.mpr ⟨?_, ?_⟩)
      · rw [hLsz] at hL
        omega
      · rw [hRsz] at hR
        have hmono : Nat.clog 2 ((hi + 1 - lo) / 2) ≤
            Nat.clog 2 ((hi + 1 - lo + 2 - 1) / 2) :=
          Nat.clog_mono_right 2 (by omega)
        omega

/-- C9 (confirmed): for every database state and every `lo ≤ hi` the
bisection of `syncMissingNearcoreBlocks` terminates (witnessed by
`gapRanges`/`gapDepth` being total functions, proved by well-founded
recursion on `hi + 1 - lo`); the split branch is reached only when
`lo < hi`, and then both sub-ranges `[lo, mid]` and `[mid + 1, hi]` are
non-empty and strictly smaller than `[lo, hi]`; the nested call depth is
at most `⌈log2 (hi - lo + 1)⌉ + 1`. -/
theorem c9_bisection_depth (fq : ℕ) (db : Finset ℕ) (lo hi : ℕ) (hle : lo ≤ hi) :
    gapDepth fq db lo hi ≤ Nat.clog 2 (hi - lo + 1) + 1 ∧
    (gapCount db lo hi ≠ hi - lo + 1 →
      ¬ (hi - lo ≤ fq ∧ gapCount db lo hi = 0) →
      lo < hi ∧ lo ≤ (lo + hi) / 2 ∧ (lo + hi) / 2 < hi ∧
        (lo + hi) / 2 - lo + 1 < hi - lo + 1 ∧
        hi - ((lo + hi) / 2 + 1) + 1 < hi - lo + 1) := by
  constructor
  · have := gapDepth_le_clog fq db (hi + 1 - lo) lo hi le_rfl
    have hsz : hi + 1 - lo = hi - lo + 1 := by omega
    rwa [hsz] at this
  · intro h2 h3
    have hlt : lo < hi :=
      gapSplit_lt fq db lo hi (by omega) (fun hh => h2 hh.symm) h3
    refine ⟨hlt, by omega, by omega, by omega, by omega⟩

/-- C9 witness: depth bound and split facts at a concrete instance. -/
theorem c9_bisection_depth_witness :
    gapDepth 0 ({2} : Finset ℕ) 1 3 ≤ Nat.clog 2 (3 - 1 + 1) + 1 ∧
    (1 < 3 ∧ 1 ≤ (1 + 3) / 2 ∧ (1 + 3) / 2 < 3 ∧
      (1 + 3) / 2 - 1 + 1 < 3 - 1 + 1 ∧ 3 - ((1 + 3) / 2 + 1) + 1 < 3 - 1 + 1) :=
  ⟨(c9_bisection_depth 0 {2} 1 3 (by decide)).1,
   (c9_bisection_depth 0 {2} 1 3 (by decide)).2 (by decide) (by decide)⟩

/-- C8 (confirmed): on the success path (the forward does not throw) the
telemetry handler forwards the request body augmented with `ip_address`
set to the first defined non-empty value among the `X-Forwarded-For`
header, the TCP peer address and the socket address, in that order
(JavaScript `||` skips an empty-string header value), to the
`node-telemetry` procedure for the network selected from the request's
query and host; it responds with `{}` unless the request carries a
(non-empty) `debug` query parameter, in which case it responds with the
timing of the forward. -/
theorem c8_telemetry_forward {Q E T : Type}
    (getNetworkName : Q → Option String → String)
    (queryDebug : Q → Option String)
    (forward : String → (String → Option String) → Except E T)
    (req : TelemetryRequest Q) (t : T)
    (hfwd : forward (getNetworkName req.query req.headersHost)
        (fun k => if k = "ip_address"
          then jsOr req.headersXForwardedFor
            (jsOr req.connectionRemoteAddress req.socketRemoteAddress)
          else req.body k) = .ok t) :
    (telemetryHandler getNetworkName queryDebug forward req).1 =
      getNetworkName req.query req.headersHost ∧
    (jsTruthy req.headersXForwardedFor = true →
      (telemetryHandler getNetworkName queryDebug forward req).2.1 "ip_address" =
        req.headersXForwardedFor) ∧
    (jsTruthy req.headersXForwardedFor = false →
      jsTruthy req.connectionRemoteAddress = true →
      (telemetryHandler getNetworkName queryDebug forward req).2.1 "ip_address" =
        req.connectionRemoteAddress) ∧
    (jsTruthy req.headersXForwardedFor = false →
      jsTruthy req.connectionRemoteAddress = false →
      (telemetryHandler getNetworkName queryDebug forward req).2.1 "ip_address" =
        req.socketRemoteAddress) ∧
    (∀ k, k ≠ "ip_address" →
      (telemetryHandler getNetworkName queryDebug forward req).2.1 k = req.body k) ∧
    (jsTruthy (queryDebug req.query) = true →
      (telemetryHandler getNetworkName queryDebug forward req).2.2 = .timing t) ∧
    (jsTruthy (queryDebug req.query) = false →
      (telemetryHandler getNetworkName queryDebug forward req).2.2 = .empty) := by
  simp only [telemetryHandler, hfwd]
  refine ⟨trivial, ?_, ?_, ?_, ?_, ?_, ?_⟩
  · intro hx
    simp [jsOr, hx]
  · intro hx hc
    simp [jsOr, hx, hc]
  · intro hx hc
    simp [jsOr, hx, hc]
  · intro k hk
    simp [hk]
  · intro hd
    simp [hd]
  · intro hd
    simp [hd]

/-- C8 witness: a concrete request with an `X-Forwarded-For` header and
no `debug` parameter. -/
theorem c8_telemetry_forward_witness :
    (telemetryHandler (fun _ _ => "mainnet") (fun _ => none)
        (fun _ _ => Except.ok (0 : ℕ)) sampleTelemetryReq :
      String × (String → Option String) × TelemetryResponse Unit ℕ).2.1
        "ip_address" = some "1.2.3.4" ∧
    (telemetryHandler (fun _ _ => "mainnet") (fun _ => none)
        (fun _ _ => Except.ok (0 : ℕ)) sampleTelemetryReq :
      String × (String → Option String) × TelemetryResponse Unit ℕ).2.2 = .empty :=
  ⟨(c8_telemetry_forward (fun _ _ => "mainnet") (fun _ => none)
      (fun _ _ => Except.ok (0 : ℕ)) sampleTelemetryReq 0 rfl).2.1 rfl,
   (c8_telemetry_forward (fun _ _ => "mainnet") (fun _ => none)
      (fun _ _ => Except.ok (0 : ℕ)) sampleTelemetryReq 0 rfl).2.2.2.2.2.2 rfl⟩

/-- C10 (confirmed): the row upserted for a telemetry report sets
`moniker` to the report's `account_id` (as well as `accountId`), and
maps `node_id`, `ip_address` and `latest_block_height` to their own
columns. -/
theorem c10_moniker_is_account_id (now : ℕ) (info : NodeTelemetryInfo) :
    (nodeTelemetryUpsertRow now info).moniker = info.account_id ∧
    (nodeTelemetryUpsertRow now info).accountId = info.account_id ∧
    (nodeTelemetryUpsertRow now info).nodeId = info.node_id ∧
    (nodeTelemetryUpsertRow now info).ipAddress = info.ip_address ∧
    (nodeTelemetryUpsertRow now info).lastHeight = info.latest_block_height :=
  ⟨rfl, rfl, rfl, rfl, rfl⟩

end NearExplorer
